import Mathlib

/-!
Verification of the AltiVec complex-packet kernel
(src/Eigen/src/Core/arch/AltiVec/Complex.h).

Model of the machine layer:

* a 128-bit vector register is a tuple of exact rational lanes
  (`Packet4f` with four 32-bit float lanes, `Packet2d` with two 64-bit
  double lanes); lane 0 occupies the lowest-addressed bytes, so a
  stored complex scalar has its real part in lane 0 and its imaginary
  part in lane 1, as the data-model invariant states;
* exact rational arithmetic stands in for IEEE arithmetic, so the
  claims stated "within floating-point tolerance" become exact
  equalities, and the model's division returns 0 on a zero divisor;
* the byte-permutation constants are carried at the byte values the
  source documents for each of them (the inline comments on lines
  18-32 of Complex.h); `vec_perm` and `vec_sld` interpret a pattern at
  lane granularity: destination lane i is assembled from the byte
  group at positions 4i..4i+3 (8i..8i+7 for doubles) of the pattern,
  and when each group is a whole, in-order source lane the result is
  that lane permutation; a pattern whose byte groups straddle lane
  boundaries would split IEEE bit patterns, which the rational lane
  model cannot represent, so those shuffles return `none`;
* XOR with the documented sign-bit masks is per-lane negation (sign
  bit set in the mask word) or identity (mask word zero); negative
  zero coincides with zero in the rational model;
* aligned and unaligned loads of the same memory read the same bytes,
  so both return the same register value; the memory seen by
  gather/scatter is a total function from element index to complex
  value.
-/

namespace EigenAltiVecComplex

/-- Complex scalar with exact rational components, standing for a
std::complex value of either precision. -/
structure CplxQ where
  re : ℚ
  im : ℚ
deriving DecidableEq

/-- Specification-side reference definition: complex addition. -/
def specCAdd (a b : CplxQ) : CplxQ := ⟨a.re + b.re, a.im + b.im⟩

/-- Specification-side reference definition: the product formula of
spec section 4.2, (ar·br − ai·bi) + i(ar·bi + ai·br). -/
def specCMul (a b : CplxQ) : CplxQ :=
  ⟨a.re * b.re - a.im * b.im, a.re * b.im + a.im * b.re⟩

/-- Specification-side reference definition: complex conjugate. -/
def specCConj (a : CplxQ) : CplxQ := ⟨a.re, -a.im⟩

/-- Specification-side reference definition: the quotient a/b computed
as a·conjugate(b) divided elementwise by s = br² + bi², per spec
section 4.2. -/
def specCDiv (a b : CplxQ) : CplxQ :=
  ⟨(a.re * b.re + a.im * b.im) / (b.re * b.re + b.im * b.im),
   (a.im * b.re - a.re * b.im) / (b.re * b.re + b.im * b.im)⟩

/-- Register with four single-precision lanes; lane 0 is stored first. -/
structure Packet4f where
  l0 : ℚ
  l1 : ℚ
  l2 : ℚ
  l3 : ℚ
deriving DecidableEq

/-- Register with two double-precision lanes; lane 0 is stored first. -/
structure Packet2d where
  l0 : ℚ
  l1 : ℚ
deriving DecidableEq

/-- Constant p4f_ZERO, the all-zero float register (addend of vec_madd). -/
def p4f_ZERO : Packet4f := ⟨0, 0, 0, 0⟩

/-- Constant p2d_ZERO_, the all negative-zero double register; negative
zero equals zero in the exact model. -/
def p2d_ZERO_ : Packet2d := ⟨0, 0⟩

/-- Byte pattern p16uc_COMPLEX_RE, documented value
0,1,2,3, 0,1,2,3, 8,9,10,11, 8,9,10,11. -/
def p16uc_COMPLEX_RE : List Nat := [0,1,2,3, 0,1,2,3, 8,9,10,11, 8,9,10,11]

/-- Byte pattern p16uc_COMPLEX_IM, documented value
4,5,6,7, 4,5,6,7, 12,13,14,15, 12,13,14,15. -/
def p16uc_COMPLEX_IM : List Nat := [4,5,6,7, 4,5,6,7, 12,13,14,15, 12,13,14,15]

/-- Byte pattern p16uc_COMPLEX_REV, documented value
4,5,6,7, 0,1,2,3, 12,13,14,15, 8,9,10,11 (swap the real and imaginary
words inside each complex slot). -/
def p16uc_COMPLEX_REV : List Nat := [4,5,6,7, 0,1,2,3, 12,13,14,15, 8,9,10,11]

/-- Byte pattern p16uc_COMPLEX_REV2, documented value
8,9,10,11, 12,13,14,15, 0,1,2,3, 4,5,6,7 (swap the two 8-byte halves). -/
def p16uc_COMPLEX_REV2 : List Nat := [8,9,10,11, 12,13,14,15, 0,1,2,3, 4,5,6,7]

/-- Byte pattern p16uc_PSET_HI, documented value
0,1,2,3, 4,5,6,7, 0,1,2,3, 4,5,6,7 (duplicate the low 8 bytes). -/
def p16uc_PSET_HI : List Nat := [0,1,2,3, 4,5,6,7, 0,1,2,3, 4,5,6,7]

/-- Byte pattern p16uc_PSET_LO, documented value
8,9,10,11, 12,13,14,15, 8,9,10,11, 12,13,14,15. -/
def p16uc_PSET_LO : List Nat := [8,9,10,11, 12,13,14,15, 8,9,10,11, 12,13,14,15]

/-- Byte pattern p16uc_COMPLEX_TRANSPOSE_0, documented value
0,1,2,3, 4,5,6,7, 16,17,18,19, 20,21,22,23. -/
def p16uc_COMPLEX_TRANSPOSE_0 : List Nat :=
  [0,1,2,3, 4,5,6,7, 16,17,18,19, 20,21,22,23]

/-- Byte pattern p16uc_COMPLEX_TRANSPOSE_1, documented value
8,9,10,11, 12,13,14,15, 24,25,26,27, 28,29,30,31. -/
def p16uc_COMPLEX_TRANSPOSE_1 : List Nat :=
  [8,9,10,11, 12,13,14,15, 24,25,26,27, 28,29,30,31]

/-- Byte pattern of vec_sld by n: bytes n..n+15 of the concatenation of
the two source registers. -/
def sldPat (n : Nat) : List Nat := (List.range 16).map (fun b => b + n)

/-- Sign mask p4ui_CONJ_XOR: per the source comments the two byte-order
builder paths place the IEEE sign bit on the imaginary (odd) 32-bit
lanes, documented value 0x00000000, 0x80000000, 0x00000000, 0x80000000. -/
def p4ui_CONJ_XOR : List Nat := [0, 2147483648, 0, 2147483648]

/-- Sign mask p2ul_CONJ_XOR, documented value
0x8000000000000000, 0x0000000000000000 (sign bit on the first 64-bit
lane). -/
def p2ul_CONJ_XOR : List Nat := [9223372036854775808, 0]

/-- Whether the w-byte group starting at position w*i of a pattern
selects one whole in-order source lane from the 32-byte concatenation. -/
def groupOk (w : Nat) (pat : List Nat) (i : Nat) : Bool :=
  let b := pat.getD (w * i) 0
  (b % w == 0) && Nat.ble (b + w) 32 &&
    (List.range w).all (fun j => pat.getD (w * i + j) 0 == b + j)

/-- Whether a 16-byte pattern is a whole-lane permutation for lane
width w and the given lane count. -/
def permOk (w lanes : Nat) (pat : List Nat) : Bool :=
  (pat.length == 16) && (List.range lanes).all (fun i => groupOk w pat i)

/-- Source lane selected by lane i of a pattern (first byte of the
group divided by the lane width). -/
def srcLane (w : Nat) (pat : List Nat) (i : Nat) : Nat :=
  pat.getD (w * i) 0 / w

/-- Concatenated lanes of two float registers, as vec_perm sees them. -/
def lanes4 (a b : Packet4f) : List ℚ :=
  [a.l0, a.l1, a.l2, a.l3, b.l0, b.l1, b.l2, b.l3]

/-- Concatenated lanes of two double registers. -/
def lanes2 (a b : Packet2d) : List ℚ :=
  [a.l0, a.l1, b.l0, b.l1]

/-- vec_perm on float registers: byte-pattern shuffle, expressible in
the lane model exactly when every 4-byte group is one whole lane. -/
def vec_perm4f (a b : Packet4f) (pat : List Nat) : Option Packet4f :=
  cond (permOk 4 4 pat)
    (some ⟨(lanes4 a b).getD (srcLane 4 pat 0) 0,
           (lanes4 a b).getD (srcLane 4 pat 1) 0,
           (lanes4 a b).getD (srcLane 4 pat 2) 0,
           (lanes4 a b).getD (srcLane 4 pat 3) 0⟩)
    none

/-- vec_perm on double registers: expressible in the lane model exactly
when every 8-byte group is one whole lane. -/
def vec_perm2d (a b : Packet2d) (pat : List Nat) : Option Packet2d :=
  cond (permOk 8 2 pat)
    (some ⟨(lanes2 a b).getD (srcLane 8 pat 0) 0,
           (lanes2 a b).getD (srcLane 8 pat 1) 0⟩)
    none

/-- vec_sld on float registers: shift the 32-byte concatenation left by
n bytes and keep the first 16. -/
def vec_sld4f (a b : Packet4f) (n : Nat) : Option Packet4f :=
  vec_perm4f a b (sldPat n)

/-- vec_sld on double registers. -/
def vec_sld2d (a b : Packet2d) (n : Nat) : Option Packet2d :=
  vec_perm2d a b (sldPat n)

/-- XOR of one lane with one mask word: identity for a zero word,
sign-bit flip (negation) for a sign-bit word. -/
def xorSign (m : Nat) (x : ℚ) : ℚ := cond (m == 0) x (-x)

/-- vec_xor of a float register with a sign-mask constant. -/
def vec_xor4f (a : Packet4f) (m : List Nat) : Packet4f :=
  ⟨xorSign (m.getD 0 0) a.l0, xorSign (m.getD 1 0) a.l1,
   xorSign (m.getD 2 0) a.l2, xorSign (m.getD 3 0) a.l3⟩

/-- vec_xor of a double register with a sign-mask constant. -/
def vec_xor2d (a : Packet2d) (m : List Nat) : Packet2d :=
  ⟨xorSign (m.getD 0 0) a.l0, xorSign (m.getD 1 0) a.l1⟩

/-- Lanewise vec_add on float registers. -/
def vec_add4f (a b : Packet4f) : Packet4f :=
  ⟨a.l0 + b.l0, a.l1 + b.l1, a.l2 + b.l2, a.l3 + b.l3⟩

/-- Lanewise vec_add on double registers. -/
def vec_add2d (a b : Packet2d) : Packet2d :=
  ⟨a.l0 + b.l0, a.l1 + b.l1⟩

/-- Lanewise vec_madd (fused multiply-add) on float registers. -/
def vec_madd4f (a b c : Packet4f) : Packet4f :=
  ⟨a.l0 * b.l0 + c.l0, a.l1 * b.l1 + c.l1,
   a.l2 * b.l2 + c.l2, a.l3 * b.l3 + c.l3⟩

/-- Lanewise vec_madd on double registers. -/
def vec_madd2d (a b c : Packet2d) : Packet2d :=
  ⟨a.l0 * b.l0 + c.l0, a.l1 * b.l1 + c.l1⟩

/-- Lanewise real division pdiv on float registers (the underlying
real-scalar kernel primitive); rational division returns 0 on a zero
divisor. -/
def pdiv4f (a b : Packet4f) : Packet4f :=
  ⟨a.l0 / b.l0, a.l1 / b.l1, a.l2 / b.l2, a.l3 / b.l3⟩

/-- Lanewise real division pdiv on double registers. -/
def pdiv2d (a b : Packet2d) : Packet2d :=
  ⟨a.l0 / b.l0, a.l1 / b.l1⟩

/-- Wide packet Packet2cf: one float register holding two packed
complex-single values re0, im0, re1, im1. -/
structure Packet2cf where
  v : Packet4f
deriving DecidableEq

/-- Narrow packet Packet1cd: one double register holding one
complex-double value re, im. -/
structure Packet1cd where
  v : Packet2d
deriving DecidableEq

/-- Aligned pload of a Packet4f: a 16-byte read starting at the given
scalar; when the scalar is a single 8-byte complex, the read also
covers the next 8 bytes of adjacent memory (lanes j2, j3). -/
def pload4f (x0 x1 j2 j3 : ℚ) : Packet4f := ⟨x0, x1, j2, j3⟩

/-- Unaligned ploadu of a Packet4f: same 16 bytes as the aligned read. -/
def ploadu4f (x0 x1 j2 j3 : ℚ) : Packet4f := ⟨x0, x1, j2, j3⟩

/-- Aligned pload of a Packet2d: a 16-byte read covering exactly one
complex-double. -/
def pload2d (x0 x1 : ℚ) : Packet2d := ⟨x0, x1⟩

/-- Unaligned ploadu of a Packet2d: same 16 bytes as the aligned read. -/
def ploadu2d (x0 x1 : ℚ) : Packet2d := ⟨x0, x1⟩

/-- pload of a Packet2cf from a 16-byte-aligned array of two complex
scalars (the packet built from a pair of values). -/
def pload_2cf (c0 c1 : CplxQ) : Packet2cf := ⟨⟨c0.re, c0.im, c1.re, c1.im⟩⟩

/-- pload of a Packet1cd from an aligned array holding one complex
scalar. -/
def pload_1cd (c : CplxQ) : Packet1cd := ⟨⟨c.re, c.im⟩⟩

/-- pset1 of Packet2cf (Complex.h lines 66-76): inspect the source
address alignment, read 16 bytes by the aligned or the unaligned path,
then broadcast the low complex with p16uc_PSET_HI; j2 and j3 are the 8
bytes of adjacent memory covered by the 16-byte read. -/
def pset1_2cf (c : CplxQ) (addr : Int) (j2 j3 : ℚ) : Option Packet2cf :=
  let r : Packet4f :=
    cond (addr % 16 == 0) (pload4f c.re c.im j2 j3) (ploadu4f c.re c.im j2 j3)
  (vec_perm4f r r p16uc_PSET_HI).map Packet2cf.mk

/-- pset1 of Packet1cd (Complex.h lines 284-294): alignment-dispatched
16-byte read of the complex scalar, then vec_perm with p16uc_PSET_HI. -/
def pset1_1cd (c : CplxQ) (addr : Int) : Option Packet1cd :=
  let r : Packet2d :=
    cond (addr % 16 == 0) (pload2d c.re c.im) (ploadu2d c.re c.im)
  (vec_perm2d r r p16uc_PSET_HI).map Packet1cd.mk

/-- padd of Packet2cf. -/
def padd_2cf (a b : Packet2cf) : Packet2cf := ⟨vec_add4f a.v b.v⟩

/-- padd of Packet1cd. -/
def padd_1cd (a b : Packet1cd) : Packet1cd := ⟨vec_add2d a.v b.v⟩

/-- pconj of Packet2cf: vec_xor with p4ui_CONJ_XOR. -/
def pconj_2cf (a : Packet2cf) : Packet2cf := ⟨vec_xor4f a.v p4ui_CONJ_XOR⟩

/-- pconj of Packet1cd: vec_xor with p2ul_CONJ_XOR. -/
def pconj_1cd (a : Packet1cd) : Packet1cd := ⟨vec_xor2d a.v p2ul_CONJ_XOR⟩

/-- pmul of Packet2cf (Complex.h lines 99-116): permute the real parts
of a, permute the imaginary parts of a, multiply each by b, flip signs
of the second product with the conjugate mask, swap its words with
p16uc_COMPLEX_REV, and add. -/
def pmul_2cf (a b : Packet2cf) : Option Packet2cf := do
  let v1 ← vec_perm4f a.v a.v p16uc_COMPLEX_RE
  let v2 ← vec_perm4f a.v a.v p16uc_COMPLEX_IM
  let v1m := vec_madd4f v1 b.v p4f_ZERO
  let v2m := vec_madd4f v2 b.v p4f_ZERO
  let v2x := vec_xor4f v2m p4ui_CONJ_XOR
  let v2r ← vec_perm4f v2x v2x p16uc_COMPLEX_REV
  some ⟨vec_add4f v1m v2r⟩

/-- pmul of Packet1cd (Complex.h lines 315-331), translated exactly as
written: both a_re and a_im are produced by vec_perm with
p16uc_PSET_HI (the comment above the second line says it should get
the imaginary parts); then multiply by b, rotate the second product by
8 bytes with vec_sld, flip with p2ul_CONJ_XOR, and add. -/
def pmul_1cd (a b : Packet1cd) : Option Packet1cd := do
  let a_re ← vec_perm2d a.v a.v p16uc_PSET_HI
  let a_im ← vec_perm2d a.v a.v p16uc_PSET_HI
  let v1 := vec_madd2d a_re b.v p2d_ZERO_
  let v2 := vec_madd2d a_im b.v p2d_ZERO_
  let v2s ← vec_sld2d v2 v2 8
  let v2x := vec_xor2d v2s p2ul_CONJ_XOR
  some ⟨vec_add2d v1 v2x⟩

/-- conj_helper of Packet2cf with conjugation on the right:
pmul(a, pconj(b)). -/
def conj_pmul_ft_2cf (a b : Packet2cf) : Option Packet2cf :=
  pmul_2cf a (pconj_2cf b)

/-- conj_helper of Packet2cf with conjugation on the left:
pmul(pconj(a), b). -/
def conj_pmul_tf_2cf (a b : Packet2cf) : Option Packet2cf :=
  pmul_2cf (pconj_2cf a) b

/-- conj_helper of Packet2cf with conjugation on both sides:
pconj(pmul(a, b)). -/
def conj_pmul_tt_2cf (a b : Packet2cf) : Option Packet2cf :=
  (pmul_2cf a b).map pconj_2cf

/-- conj_helper of Packet1cd with conjugation on the right. -/
def conj_pmul_ft_1cd (a b : Packet1cd) : Option Packet1cd :=
  pmul_1cd a (pconj_1cd b)

/-- conj_helper of Packet1cd with conjugation on the left. -/
def conj_pmul_tf_1cd (a b : Packet1cd) : Option Packet1cd :=
  pmul_1cd (pconj_1cd a) b

/-- conj_helper of Packet1cd with conjugation on both sides:
pconj(pmul(a, b)). -/
def conj_pmul_tt_1cd (a b : Packet1cd) : Option Packet1cd :=
  (pmul_1cd a b).map pconj_1cd

/-- pdiv of Packet2cf (Complex.h lines 226-232): numerator
a·conjugate(b) via the conjugate-right helper, denominator
s + perm(s, p16uc_COMPLEX_REV) with s = b·b, then lanewise real
division. -/
def pdiv_2cf (a b : Packet2cf) : Option Packet2cf := do
  let res ← conj_pmul_ft_2cf a b
  let s := vec_madd4f b.v b.v p4f_ZERO
  let srev ← vec_perm4f s s p16uc_COMPLEX_REV
  some ⟨pdiv4f res.v (vec_add4f s srev)⟩

/-- pdiv of Packet1cd (Complex.h lines 430-436): same shape as the wide
version; note the denominator shuffle reuses the 32-bit-word pattern
p16uc_COMPLEX_REV on a register of two 64-bit doubles. -/
def pdiv_1cd (a b : Packet1cd) : Option Packet1cd := do
  let res ← conj_pmul_ft_1cd a b
  let s := vec_madd2d b.v b.v p2d_ZERO_
  let srev ← vec_perm2d s s p16uc_COMPLEX_REV
  some ⟨pdiv2d res.v (vec_add2d s srev)⟩

/-- pfirst of Packet2cf: store the register and read the first complex
element, lanes 0 and 1. -/
def pfirst_2cf (a : Packet2cf) : CplxQ := ⟨a.v.l0, a.v.l1⟩

/-- pfirst of Packet1cd: lanes 0 and 1 of the register. -/
def pfirst_1cd (a : Packet1cd) : CplxQ := ⟨a.v.l0, a.v.l1⟩

/-- preverse of Packet2cf: vec_perm with p16uc_COMPLEX_REV2. -/
def preverse_2cf (a : Packet2cf) : Option Packet2cf :=
  (vec_perm4f a.v a.v p16uc_COMPLEX_REV2).map Packet2cf.mk

/-- preverse of Packet1cd (Complex.h lines 353-358): also vec_perm with
p16uc_COMPLEX_REV2, on the double register. -/
def preverse_1cd (a : Packet1cd) : Option Packet1cd :=
  (vec_perm2d a.v a.v p16uc_COMPLEX_REV2).map Packet1cd.mk

/-- predux of Packet2cf (Complex.h lines 151-157): rotate the register
by 8 bytes, add, take the first complex element. -/
def predux_2cf (a : Packet2cf) : Option CplxQ := do
  let b ← vec_sld4f a.v a.v 8
  some (pfirst_2cf ⟨vec_add4f a.v b⟩)

/-- predux of Packet1cd (Complex.h lines 360-366): same 8-byte rotate
and add, on the single-lane double register. -/
def predux_1cd (a : Packet1cd) : Option CplxQ := do
  let b ← vec_sld2d a.v a.v 8
  some (pfirst_1cd ⟨vec_add2d a.v b⟩)

/-- predux_mul of Packet2cf (Complex.h lines 171-179): rotate by 8
bytes, pmul the packet with the rotation, take the first element. -/
def predux_mul_2cf (a : Packet2cf) : Option CplxQ := do
  let b ← vec_sld4f a.v a.v 8
  let prod ← pmul_2cf a ⟨b⟩
  some (pfirst_2cf prod)

/-- predux_mul of Packet1cd (Complex.h lines 380-388). -/
def predux_mul_1cd (a : Packet1cd) : Option CplxQ := do
  let b ← vec_sld2d a.v a.v 8
  let prod ← pmul_1cd a ⟨b⟩
  some (pfirst_1cd prod)

/-- pgather of Packet2cf (Complex.h lines 78-84): staging buffer
af[0] = from[0·stride], af[1] = from[1·stride], then one contiguous
16-byte load of the buffer. -/
def pgather_2cf (mem : Int → CplxQ) (stride : Int) : Packet2cf :=
  let af0 := mem (0 * stride)
  let af1 := mem (1 * stride)
  ⟨⟨af0.re, af0.im, af1.re, af1.im⟩⟩

/-- pscatter of Packet2cf (Complex.h lines 85-91): store the register
to the staging buffer, then write to[0·stride] := af[0] and
to[1·stride] := af[1], in that order. -/
def pscatter_2cf (mem : Int → CplxQ) (a : Packet2cf) (stride : Int) :
    Int → CplxQ :=
  let af0 : CplxQ := ⟨a.v.l0, a.v.l1⟩
  let af1 : CplxQ := ⟨a.v.l2, a.v.l3⟩
  fun i => if i = 1 * stride then af1 else if i = 0 * stride then af0 else mem i

/-- pgather of Packet1cd (Complex.h lines 295-301): the staging buffer
reads both from[0·stride] and from[1·stride], but the following
pload of a Packet1cd covers only the first 16 bytes, so only af[0]
reaches the packet. -/
def pgather_1cd (mem : Int → CplxQ) (stride : Int) : Packet1cd :=
  let af0 := mem (0 * stride)
  let _af1 := mem (1 * stride)
  ⟨⟨af0.re, af0.im⟩⟩

/-- pscatter of Packet1cd (Complex.h lines 302-308): the pstore fills
only af[0] (16 bytes, one complex-double), so the second staging
element written to to[1·stride] keeps whatever the uninitialized stack
held, modeled by the junk parameter. -/
def pscatter_1cd (mem : Int → CplxQ) (a : Packet1cd) (stride : Int)
    (junk : CplxQ) : Int → CplxQ :=
  let af0 : CplxQ := ⟨a.v.l0, a.v.l1⟩
  let af1 : CplxQ := junk
  fun i => if i = 1 * stride then af1 else if i = 0 * stride then af0 else mem i

/-- PacketBlock of two wide packets (a 2×2 complex tile, row per
packet). -/
structure PacketBlock2cf where
  packet0 : Packet2cf
  packet1 : Packet2cf
deriving DecidableEq

/-- PacketBlock of two narrow packets. -/
structure PacketBlock1cd where
  packet0 : Packet1cd
  packet1 : Packet1cd
deriving DecidableEq

/-- ptranspose of a Packet2cf block (Complex.h lines 239-244): two
vec_perm applications with the fixed transpose patterns. -/
def ptranspose_2cf (k : PacketBlock2cf) : Option PacketBlock2cf := do
  let tmp ← vec_perm4f k.packet0.v k.packet1.v p16uc_COMPLEX_TRANSPOSE_0
  let p1 ← vec_perm4f k.packet0.v k.packet1.v p16uc_COMPLEX_TRANSPOSE_1
  some ⟨⟨tmp⟩, ⟨p1⟩⟩

/-- ptranspose of a Packet1cd block (Complex.h lines 443-448). -/
def ptranspose_1cd (k : PacketBlock1cd) : Option PacketBlock1cd := do
  let tmp ← vec_perm2d k.packet0.v k.packet1.v p16uc_COMPLEX_TRANSPOSE_0
  let p1 ← vec_perm2d k.packet0.v k.packet1.v p16uc_COMPLEX_TRANSPOSE_1
  some ⟨⟨tmp⟩, ⟨p1⟩⟩

/-- Memory contents used by the gather/scatter failing-input theorem:
element 0 holds 1+2i, element 1 holds 3+4i, the rest zero. -/
def memC9 : Int → CplxQ :=
  fun i => if i = 0 then ⟨1, 2⟩ else if i = 1 then ⟨3, 4⟩ else ⟨0, 0⟩

/-- Evaluation of vec_perm with p16uc_COMPLEX_RE: replicate the real
word of each complex slot. -/
theorem perm4f_RE (a b : Packet4f) :
    vec_perm4f a b p16uc_COMPLEX_RE = some ⟨a.l0, a.l0, a.l2, a.l2⟩ := rfl

/-- Evaluation of vec_perm with p16uc_COMPLEX_IM: replicate the
imaginary word of each complex slot. -/
theorem perm4f_IM (a b : Packet4f) :
    vec_perm4f a b p16uc_COMPLEX_IM = some ⟨a.l1, a.l1, a.l3, a.l3⟩ := rfl

/-- Evaluation of vec_perm with p16uc_COMPLEX_REV: swap the real and
imaginary words inside each complex slot. -/
theorem perm4f_REV (a b : Packet4f) :
    vec_perm4f a b p16uc_COMPLEX_REV = some ⟨a.l1, a.l0, a.l3, a.l2⟩ := rfl

/-- Evaluation of vec_perm with p16uc_COMPLEX_REV2: swap the two
complex slots. -/
theorem perm4f_REV2 (a b : Packet4f) :
    vec_perm4f a b p16uc_COMPLEX_REV2 = some ⟨a.l2, a.l3, a.l0, a.l1⟩ := rfl

/-- Evaluation of vec_perm with p16uc_PSET_HI on floats: broadcast the
low complex slot. -/
theorem perm4f_PSET_HI (a b : Packet4f) :
    vec_perm4f a b p16uc_PSET_HI = some ⟨a.l0, a.l1, a.l0, a.l1⟩ := rfl

/-- Evaluation of vec_perm with p16uc_COMPLEX_TRANSPOSE_0 on floats:
low complex slots of the two registers. -/
theorem perm4f_T0 (a b : Packet4f) :
    vec_perm4f a b p16uc_COMPLEX_TRANSPOSE_0 = some ⟨a.l0, a.l1, b.l0, b.l1⟩ := rfl

/-- Evaluation of vec_perm with p16uc_COMPLEX_TRANSPOSE_1 on floats:
high complex slots of the two registers. -/
theorem perm4f_T1 (a b : Packet4f) :
    vec_perm4f a b p16uc_COMPLEX_TRANSPOSE_1 = some ⟨a.l2, a.l3, b.l2, b.l3⟩ := rfl

/-- Evaluation of vec_sld by 8 bytes on floats: rotate the pair of
complex slots. -/
theorem sld4f_8 (a b : Packet4f) :
    vec_sld4f a b 8 = some ⟨a.l2, a.l3, b.l0, b.l1⟩ := rfl

/-- Evaluation of vec_perm with p16uc_PSET_HI on doubles: both lanes
take the first double (the low 8 bytes duplicated). -/
theorem perm2d_PSET_HI (a b : Packet2d) :
    vec_perm2d a b p16uc_PSET_HI = some ⟨a.l0, a.l0⟩ := rfl

/-- Evaluation of vec_perm with p16uc_COMPLEX_REV2 on doubles: swap the
two 8-byte lanes. -/
theorem perm2d_REV2 (a b : Packet2d) :
    vec_perm2d a b p16uc_COMPLEX_REV2 = some ⟨a.l1, a.l0⟩ := rfl

/-- Evaluation of vec_perm with p16uc_COMPLEX_TRANSPOSE_0 on doubles. -/
theorem perm2d_T0 (a b : Packet2d) :
    vec_perm2d a b p16uc_COMPLEX_TRANSPOSE_0 = some ⟨a.l0, b.l0⟩ := rfl

/-- Evaluation of vec_perm with p16uc_COMPLEX_TRANSPOSE_1 on doubles. -/
theorem perm2d_T1 (a b : Packet2d) :
    vec_perm2d a b p16uc_COMPLEX_TRANSPOSE_1 = some ⟨a.l1, b.l1⟩ := rfl

/-- Evaluation of vec_sld by 8 bytes on doubles: swap halves across the
pair of registers. -/
theorem sld2d_8 (a b : Packet2d) :
    vec_sld2d a b 8 = some ⟨a.l1, b.l0⟩ := rfl

/-- Applying the 32-bit-word pattern p16uc_COMPLEX_REV to a register of
two 64-bit doubles is not a whole-lane permutation (its first byte
group starts at byte 4, inside a double), so the shuffle leaves the
lane model. -/
theorem perm2d_REV_not_lane (a b : Packet2d) :
    vec_perm2d a b p16uc_COMPLEX_REV = none := rfl

/-- Evaluation of vec_xor with p4ui_CONJ_XOR: negate the imaginary
(odd) float lanes. -/
theorem xor4f_CONJ (a : Packet4f) :
    vec_xor4f a p4ui_CONJ_XOR = ⟨a.l0, -a.l1, a.l2, -a.l3⟩ := rfl

/-- Evaluation of vec_xor with p2ul_CONJ_XOR: negate the first double
lane, per the documented mask value. -/
theorem xor2d_CONJ (a : Packet2d) :
    vec_xor2d a p2ul_CONJ_XOR = ⟨-a.l0, a.l1⟩ := rfl

/-- Every byte pattern the float-side kernel passes to vec_perm is a
whole-lane permutation, so the lane model loses nothing there. -/
theorem float_patterns_whole_lane :
    permOk 4 4 p16uc_COMPLEX_RE = true ∧ permOk 4 4 p16uc_COMPLEX_IM = true ∧
    permOk 4 4 p16uc_COMPLEX_REV = true ∧ permOk 4 4 p16uc_COMPLEX_REV2 = true ∧
    permOk 4 4 p16uc_PSET_HI = true ∧ permOk 4 4 p16uc_COMPLEX_TRANSPOSE_0 = true ∧
    permOk 4 4 p16uc_COMPLEX_TRANSPOSE_1 = true ∧ permOk 4 4 (sldPat 8) = true := by
  decide

/-- Broadcast of a complex scalar into a wide packet evaluates to
re, im, re, im on either alignment path, independent of the adjacent
memory covered by the 16-byte read. -/
theorem pset1_2cf_eval (c : CplxQ) (addr : Int) (j2 j3 : ℚ) :
    pset1_2cf c addr j2 j3 = some ⟨⟨c.re, c.im, c.re, c.im⟩⟩ := by
  cases hb : addr % 16 == 0 <;>
    simp [pset1_2cf, pload4f, ploadu4f, hb, perm4f_PSET_HI]

/-- Broadcast of a complex scalar into a narrow packet evaluates, on
either alignment path, to a register holding the real part twice: the
float broadcast shuffle p16uc_PSET_HI duplicates the low 8 bytes, which
for a double register is the real half only. -/
theorem pset1_1cd_eval (c : CplxQ) (addr : Int) :
    pset1_1cd c addr = some ⟨⟨c.re, c.re⟩⟩ := by
  cases hb : addr % 16 == 0 <;>
    simp [pset1_1cd, pload2d, ploadu2d, hb, perm2d_PSET_HI]

/-- Lanewise closed form of the wide complex multiply: each complex
slot receives the product formula of spec section 4.2. -/
theorem pmul_2cf_eval (x0 x1 x2 x3 y0 y1 y2 y3 : ℚ) :
    pmul_2cf ⟨⟨x0, x1, x2, x3⟩⟩ ⟨⟨y0, y1, y2, y3⟩⟩ =
      some ⟨⟨x0 * y0 - x1 * y1, x0 * y1 + x1 * y0,
             x2 * y2 - x3 * y3, x2 * y3 + x3 * y2⟩⟩ := by
  simp [pmul_2cf, perm4f_RE, perm4f_IM, perm4f_REV, xor4f_CONJ,
    vec_madd4f, vec_add4f, p4f_ZERO, Packet2cf.mk.injEq, Packet4f.mk.injEq]
  exact ⟨by ring, by ring⟩

/-- Lanewise closed form of the narrow complex multiply as coded: since
both operand shuffles use p16uc_PSET_HI, the imaginary part of a is
never read. -/
theorem pmul_1cd_eval (x0 x1 y0 y1 : ℚ) :
    pmul_1cd ⟨⟨x0, x1⟩⟩ ⟨⟨y0, y1⟩⟩ =
      some ⟨⟨x0 * y0 - x0 * y1, x0 * y1 + x0 * y0⟩⟩ := by
  simp [pmul_1cd, perm2d_PSET_HI, sld2d_8, xor2d_CONJ,
    vec_madd2d, vec_add2d, p2d_ZERO_, Packet1cd.mk.injEq, Packet2d.mk.injEq]
  ring

/-- C1: the claim fails on the narrow packet. Broadcasting a = b = 1+0i
(any alignment) and multiplying, the first lane of pmul of Packet1cd is
0+2i, not the scalar product 1+0i: pset1 duplicates the real half and
pmul reads the real part of a in place of its imaginary part. -/
theorem C1_pmul_1cd_failing_input :
    (do
      let pa ← pset1_1cd ⟨1, 0⟩ 0
      let pb ← pset1_1cd ⟨1, 0⟩ 0
      let p ← pmul_1cd pa pb
      some (pfirst_1cd p)) = some ⟨0, 2⟩
    ∧ specCMul ⟨1, 0⟩ ⟨1, 0⟩ = ⟨1, 0⟩
    ∧ ((⟨0, 2⟩ : CplxQ) ≠ ⟨1, 0⟩) := by
  refine ⟨?_, ?_, ?_⟩
  · norm_num [pset1_1cd_eval, pmul_1cd_eval, pfirst_1cd]
  · norm_num [specCMul, CplxQ.mk.injEq]
  · norm_num [CplxQ.mk.injEq]

/-- C2: the claim fails on the narrow packet. For a = i, b = 1 the
quotient should be i, but the numerator a·conjugate(b) computed by the
conjugate-right helper is the zero packet (pmul of Packet1cd never
reads the imaginary part of a), and the denominator shuffle applies the
32-bit-word pattern p16uc_COMPLEX_REV to 64-bit lanes, splitting the
doubles, so the lane model returns none for the whole division. -/
theorem C2_pdiv_1cd_failing_input :
    pdiv_1cd ⟨⟨0, 1⟩⟩ ⟨⟨1, 0⟩⟩ = none
    ∧ permOk 8 2 p16uc_COMPLEX_REV = false
    ∧ conj_pmul_ft_1cd ⟨⟨0, 1⟩⟩ ⟨⟨1, 0⟩⟩ = some ⟨⟨0, 0⟩⟩
    ∧ specCDiv ⟨0, 1⟩ ⟨1, 0⟩ = ⟨0, 1⟩ := by
  refine ⟨rfl, by decide, ?_, ?_⟩
  · norm_num [conj_pmul_ft_1cd, pconj_1cd, xor2d_CONJ, pmul_1cd_eval]
  · norm_num [specCDiv, CplxQ.mk.injEq]

/-- C3: the claim fails on the narrow packet. Broadcasting s = 3+4i at
an aligned and at an unaligned address produces the same packet (that
half of the claim holds), but the packet holds 3,3 rather than the
claimed lane 3,4: the float broadcast shuffle duplicates the low 8
bytes, the real half of the double. -/
theorem C3_pset1_1cd_failing_input :
    pset1_1cd ⟨3, 4⟩ 0 = some ⟨⟨3, 3⟩⟩
    ∧ pset1_1cd ⟨3, 4⟩ 5 = some ⟨⟨3, 3⟩⟩
    ∧ pfirst_1cd ⟨⟨3, 3⟩⟩ ≠ (⟨3, 4⟩ : CplxQ) := by
  refine ⟨rfl, rfl, by norm_num [pfirst_1cd, CplxQ.mk.injEq]⟩

/-- C4: the claim fails on the narrow packet. predux of a Packet1cd
holding 1+2i returns 3+3i, the sum of the real and imaginary halves of
its single lane, instead of the lane 1+2i unchanged. -/
theorem C4_predux_1cd_failing_input :
    predux_1cd ⟨⟨1, 2⟩⟩ = some ⟨3, 3⟩
    ∧ ((⟨3, 3⟩ : CplxQ) ≠ ⟨1, 2⟩) := by
  constructor
  · norm_num [predux_1cd, sld2d_8, vec_add2d, pfirst_1cd]
  · norm_num [CplxQ.mk.injEq]

/-- C5: the claim fails on the narrow packet. predux_mul of a Packet1cd
holding 1+0i returns -1+1i instead of the single lane 1+0i: the code
multiplies the packet by its byte-rotated self with the defective
narrow pmul. -/
theorem C5_predux_mul_1cd_failing_input :
    predux_mul_1cd ⟨⟨1, 0⟩⟩ = some ⟨-1, 1⟩
    ∧ ((⟨-1, 1⟩ : CplxQ) ≠ ⟨1, 0⟩) := by
  constructor
  · norm_num [predux_mul_1cd, sld2d_8, pmul_1cd_eval, pfirst_1cd]
  · norm_num [CplxQ.mk.injEq]

/-- C6: the claim fails on the narrow packet. preverse of a Packet1cd
holding 1+2i is not a no-op: the shuffle p16uc_COMPLEX_REV2 swaps the
two 8-byte halves of the register, exchanging the real and imaginary
parts of the single lane. -/
theorem C6_preverse_1cd_failing_input :
    preverse_1cd ⟨⟨1, 2⟩⟩ = some ⟨⟨2, 1⟩⟩
    ∧ (Packet1cd.mk ⟨2, 1⟩ ≠ Packet1cd.mk ⟨1, 2⟩) := by
  constructor
  · rfl
  · norm_num [Packet1cd.mk.injEq, Packet2d.mk.injEq]

/-- C7: the claim fails on the narrow packet. For a = 1+1i, b = 2+3i
the conjugate-both helper returns 1+5i while pmul of the two
conjugated packets returns 5-1i, so the claimed identity does not hold
on Packet1cd (it fails because the narrow pmul never reads the
imaginary part of its left operand). -/
theorem C7_conj_both_1cd_failing_input :
    conj_pmul_tt_1cd ⟨⟨1, 1⟩⟩ ⟨⟨2, 3⟩⟩ = some ⟨⟨1, 5⟩⟩
    ∧ pmul_1cd (pconj_1cd ⟨⟨1, 1⟩⟩) (pconj_1cd ⟨⟨2, 3⟩⟩) = some ⟨⟨5, -1⟩⟩
    ∧ (Packet1cd.mk ⟨1, 5⟩ ≠ Packet1cd.mk ⟨5, -1⟩) := by
  refine ⟨?_, ?_, ?_⟩
  · norm_num [conj_pmul_tt_1cd, pconj_1cd, xor2d_CONJ, pmul_1cd_eval]
  · norm_num [pconj_1cd, xor2d_CONJ, pmul_1cd_eval]
  · norm_num [Packet1cd.mk.injEq, Packet2d.mk.injEq]

/-- C8: ptranspose on a wide 2x2 tile with rows a,b and c,d produces
rows a,c and b,d, each complex value kept intact. -/
theorem C8_ptranspose_2cf_tile (a b c d : CplxQ) :
    ptranspose_2cf ⟨pload_2cf a b, pload_2cf c d⟩ =
      some ⟨pload_2cf a c, pload_2cf b d⟩ := rfl

/-- Witness for C8 at a concrete tile. -/
theorem C8_ptranspose_2cf_tile_witness :
    ptranspose_2cf ⟨pload_2cf ⟨1, 2⟩ ⟨3, 4⟩, pload_2cf ⟨5, 6⟩ ⟨7, 8⟩⟩ =
      some ⟨pload_2cf ⟨1, 2⟩ ⟨5, 6⟩, pload_2cf ⟨3, 4⟩ ⟨7, 8⟩⟩ :=
  C8_ptranspose_2cf_tile ⟨1, 2⟩ ⟨3, 4⟩ ⟨5, 6⟩ ⟨7, 8⟩

/-- C9: the claim fails on the narrow packet. With elements 1+2i at
index 0 and 3+4i at index 1 and stride 1, scatter after gather writes
the uninitialized second staging element (here 9+9i) to to[stride]
instead of 3+4i: the narrow pstore fills only af[0], and the narrow
pgather reads from[stride] even though the packet holds one element. -/
theorem C9_pscatter_1cd_failing_input :
    pscatter_1cd memC9 (pgather_1cd memC9 1) 1 ⟨9, 9⟩ 1 = ⟨9, 9⟩
    ∧ pscatter_1cd memC9 (pgather_1cd memC9 1) 1 ⟨9, 9⟩ 0 = ⟨1, 2⟩
    ∧ memC9 1 = ⟨3, 4⟩
    ∧ ((⟨9, 9⟩ : CplxQ) ≠ ⟨3, 4⟩) := by
  refine ⟨rfl, rfl, rfl, by norm_num [CplxQ.mk.injEq]⟩

/-- C10: ptranspose is an involution on both widths: transposing a
PacketBlock twice restores both packets exactly. -/
theorem C10_ptranspose_involution (k : PacketBlock2cf) (m : PacketBlock1cd) :
    (ptranspose_2cf k).bind ptranspose_2cf = some k
    ∧ (ptranspose_1cd m).bind ptranspose_1cd = some m := by
  constructor <;> rfl

/-- Witness for C10 at concrete blocks. -/
theorem C10_ptranspose_involution_witness :
    (ptranspose_2cf ⟨pload_2cf ⟨1, 2⟩ ⟨3, 4⟩, pload_2cf ⟨5, 6⟩ ⟨7, 8⟩⟩).bind
        ptranspose_2cf =
      some ⟨pload_2cf ⟨1, 2⟩ ⟨3, 4⟩, pload_2cf ⟨5, 6⟩ ⟨7, 8⟩⟩
    ∧ (ptranspose_1cd ⟨pload_1cd ⟨1, 2⟩, pload_1cd ⟨3, 4⟩⟩).bind
        ptranspose_1cd =
      some ⟨pload_1cd ⟨1, 2⟩, pload_1cd ⟨3, 4⟩⟩ :=
  C10_ptranspose_involution
    ⟨pload_2cf ⟨1, 2⟩ ⟨3, 4⟩, pload_2cf ⟨5, 6⟩ ⟨7, 8⟩⟩
    ⟨pload_1cd ⟨1, 2⟩, pload_1cd ⟨3, 4⟩⟩

/-- Wide-side part of C1, which does hold: for all complex scalars a
and b, at any source alignments and with any adjacent memory, the first
lane of pmul of the two broadcasts is exactly the scalar product. -/
theorem pmul_2cf_broadcast_first (a b : CplxQ) (adA adB : Int) (j0 j1 j2 j3 : ℚ) :
    (do
      let pa ← pset1_2cf a adA j0 j1
      let pb ← pset1_2cf b adB j2 j3
      let p ← pmul_2cf pa pb
      some (pfirst_2cf p)) = some (specCMul a b) := by
  simp [pset1_2cf_eval, pmul_2cf_eval, pfirst_2cf, specCMul]

/-- Wide-side part of C2, which does hold: the first lane of pdiv of
the two broadcasts is the complex quotient, both components divided by
s = br² + bi² as the spec describes (exact rational arithmetic; the
nonzero-s hypothesis mirrors the claim's precondition). -/
theorem pdiv_2cf_broadcast_first (a b : CplxQ) (adA adB : Int) (j0 j1 j2 j3 : ℚ)
    (_hs : b.re * b.re + b.im * b.im ≠ 0) :
    (do
      let pa ← pset1_2cf a adA j0 j1
      let pb ← pset1_2cf b adB j2 j3
      let q ← pdiv_2cf pa pb
      some (pfirst_2cf q)) = some (specCDiv a b) := by
  simp [pset1_2cf_eval, pdiv_2cf, conj_pmul_ft_2cf, pconj_2cf, xor4f_CONJ,
    pmul_2cf_eval, perm4f_REV, vec_madd4f, vec_add4f, pdiv4f, p4f_ZERO,
    pfirst_2cf, specCDiv, CplxQ.mk.injEq]
  ring

/-- Wide-side part of C4, which does hold: predux of the packet built
from the pair a, b is the complex sum a + b. -/
theorem predux_2cf_sum (a b : CplxQ) :
    predux_2cf (pload_2cf a b) = some (specCAdd a b) := rfl

/-- Wide-side part of C5, which does hold: predux_mul of the packet
built from the pair a, b is the complex product a · b. -/
theorem predux_mul_2cf_prod (a b : CplxQ) :
    predux_mul_2cf (pload_2cf a b) = some (specCMul a b) := by
  simp [predux_mul_2cf, pload_2cf, sld4f_8, pmul_2cf_eval, pfirst_2cf,
    specCMul]

/-- Wide-side part of C6, which does hold: preverse of the packet built
from the pair a, b is the packet built from b, a, each complex value
kept intact. -/
theorem preverse_2cf_swap (a b : CplxQ) :
    preverse_2cf (pload_2cf a b) = some (pload_2cf b a) := rfl

/-- Wide-side part of C7, which does hold exactly: the conjugate-both
helper of Packet2cf agrees with pmul of the two conjugated packets. -/
theorem conj_both_2cf_identity (a b : Packet2cf) :
    conj_pmul_tt_2cf a b = pmul_2cf (pconj_2cf a) (pconj_2cf b) := by
  obtain ⟨⟨x0, x1, x2, x3⟩⟩ := a
  obtain ⟨⟨y0, y1, y2, y3⟩⟩ := b
  simp [conj_pmul_tt_2cf, pconj_2cf, xor4f_CONJ, pmul_2cf_eval,
    Packet2cf.mk.injEq, Packet4f.mk.injEq]
  exact ⟨by ring, by ring⟩

/-- Wide-side part of C3, which does hold: broadcast is bit-identical
across the alignment paths and fills both lanes with the scalar, per
pset1_2cf_eval; restated here as path equality at arbitrary addresses. -/
theorem pset1_2cf_path_independent (c : CplxQ) (adA adB : Int) (j0 j1 j2 j3 : ℚ) :
    pset1_2cf c adA j0 j1 = pset1_2cf c adB j2 j3 := by
  rw [pset1_2cf_eval, pset1_2cf_eval]

/-- Wide-side part of C9, first half, which does hold: the gathered
packet takes exactly the elements at indices 0 and stride, in that
order, in lanes 0 and 1. -/
theorem pgather_2cf_lanes (mem : Int → CplxQ) (stride : Int) :
    pgather_2cf mem stride =
      ⟨⟨(mem 0).re, (mem 0).im, (mem stride).re, (mem stride).im⟩⟩ := by
  simp [pgather_2cf]

/-- Wide-side part of C9, second half, which does hold: scatter after
gather with the same nonzero stride reproduces the two source elements
at indices 0 and stride and leaves every other element of the
destination unchanged. -/
theorem pscatter_pgather_2cf (mem out : Int → CplxQ) (stride : Int)
    (hs : stride ≠ 0) :
    pscatter_2cf out (pgather_2cf mem stride) stride 0 = mem 0
    ∧ pscatter_2cf out (pgather_2cf mem stride) stride stride = mem stride
    ∧ ∀ i : Int, i ≠ 0 → i ≠ stride →
        pscatter_2cf out (pgather_2cf mem stride) stride i = out i := by
  refine ⟨?_, ?_, ?_⟩
  · simp [pscatter_2cf, pgather_2cf, Ne.symm hs]
  · simp [pscatter_2cf, pgather_2cf]
  · intro i hi0 his
    simp [pscatter_2cf, pgather_2cf, hi0, his]

end EigenAltiVecComplex
